import Mathlib

/-!
Verification of the RTLS-Link device connectivity layer.

Shallow embedding of the Rust sources of `rtls-link-manager`:
  - `crates/rtls-link-core/src/protocol/response.rs` (JSON extraction, error heuristic)
  - `crates/rtls-link-core/src/protocol/commands.rs` (command builders)
  - `crates/rtls-link-core/src/device/websocket.rs` (retry wrapper, batch sender)
  - `crates/rtls-link-core/src/device/ota.rs` (bulk firmware upload)
  - `src-tauri/src/discovery/service.rs` and
    `crates/rtls-link-core/src/discovery/service.rs` (heartbeat parsing, TTL pruning, watch loop)

Rust `String`/`&str` values are modelled as lists of Unicode scalar values
(`List Char`), with explicit UTF-8 byte accounting where the source performs
byte-indexed slicing.
-/

/-- Model of a Rust string: its sequence of Unicode scalar values. -/
abbrev RStr := List Char

/-- UTF-8 byte length of a modelled Rust string (`str::len`). -/
def rbyteLen (s : RStr) : Nat := (s.map Char.utf8Size).sum

/-- Model of Rust `char` lowercasing (`char::to_lowercase`), as the list of
characters it expands to.  Exact on ASCII; U+0130 (LATIN CAPITAL LETTER I WITH
DOT ABOVE) expands to U+0069 U+0307 as in Unicode SpecialCasing; all other
characters are modelled as fixed points. -/
def charToLower (c : Char) : List Char :=
  if c = Char.ofNat 0x130 then [Char.ofNat 0x69, Char.ofNat 0x307]
  else if 65 ≤ c.toNat && c.toNat ≤ 90 then [Char.ofNat (c.toNat + 32)]
  else [c]

/-- Model of Rust `str::to_lowercase`. -/
def rtoLowercase (s : RStr) : RStr := s.flatMap charToLower

/-- Character index of the first occurrence of `pat` as a contiguous substring
of `s` (`none` when there is no occurrence). -/
def rfindSub : RStr → RStr → Option Nat
  | [], pat => if pat.isEmpty then some 0 else none
  | c :: t, pat =>
    if pat.isPrefixOf (c :: t) then some 0 else (rfindSub t pat).map (· + 1)

/-- Model of Rust `str::contains` for a substring pattern. -/
def containsSub (s pat : RStr) : Bool := (rfindSub s pat).isSome

/-- Byte offset of the character index `i` inside `s`.  For an ASCII pattern,
Rust `str::find` returns exactly this offset of the first char-level
occurrence: ASCII bytes never occur inside a multi-byte UTF-8 character, so a
byte-level match of an ASCII pattern always starts at a character boundary. -/
def byteOffset (s : RStr) (i : Nat) : Nat := rbyteLen (s.take i)

/-- Model of the Rust slice `&s[b..]` for a byte index `b`: `none` models the
panic when `b` is out of bounds or not a character boundary. -/
def sliceFromByte : RStr → Nat → Option RStr
  | s, 0 => some s
  | [], _ + 1 => none
  | c :: t, b + 1 =>
    if b + 1 < c.utf8Size then none else sliceFromByte t (b + 1 - c.utf8Size)

/-- Model of Rust `char::is_whitespace` on the characters this protocol uses
(ASCII whitespace). -/
def rIsWhitespace (c : Char) : Bool :=
  c = ' ' || c = '\t' || c = '\n' || c = '\r'

/-- Model of Rust `str::trim`. -/
def rtrim (s : RStr) : RStr :=
  ((s.dropWhile rIsWhitespace).reverse.dropWhile rIsWhitespace).reverse

/-- Every character is ASCII. -/
def allAscii (s : RStr) : Bool := s.all (fun c => c.toNat < 128)

example : rtoLowercase "Error: X".data = "error: x".data := by decide
example : rfindSub "abcabc".data "cab".data = some 2 := by decide
example : sliceFromByte "héllo".data 3 = some "llo".data := by decide
example : sliceFromByte "héllo".data 2 = none := by decide
example : rtrim "  ab c\n".data = "ab c".data := by decide

/-! ## Model of `serde_json` values and parsing

`serde_json::Value` is modelled by `JValue`.  Numbers: integer literals are
kept exactly (`jint`); literals with a fraction or exponent — which
`serde_json` represents as `f64` and on which `as_u64` returns `None` — keep
their raw text (`jfloat`).  Objects keep their key/value pairs in parse order;
`serde_json`'s map semantics (later duplicate keys overwrite earlier ones) are
modelled by lookups taking the last matching key. -/

inductive JValue where
  | null
  | jbool (b : Bool)
  | jint (n : Int)
  | jfloat (lit : RStr)
  | jstr (s : RStr)
  | jarr (xs : List JValue)
  | jobj (kvs : List (RStr × JValue))

/-- JSON whitespace accepted by `serde_json`. -/
def jsonWs (c : Char) : Bool := c = ' ' || c = '\t' || c = '\n' || c = '\r'

def skipWs (s : RStr) : RStr := s.dropWhile jsonWs

/-- One-character escapes in JSON strings. -/
def simpleEsc (c : Char) : Option Char :=
  if c = '"' then some '"'
  else if c = '\\' then some '\\'
  else if c = '/' then some '/'
  else if c = 'b' then some (Char.ofNat 8)
  else if c = 'f' then some (Char.ofNat 12)
  else if c = 'n' then some '\n'
  else if c = 'r' then some '\r'
  else if c = 't' then some '\t'
  else none

def hexDigit (c : Char) : Option Nat :=
  if '0' ≤ c && c ≤ '9' then some (c.toNat - 48)
  else if 'a' ≤ c && c ≤ 'f' then some (c.toNat - 87)
  else if 'A' ≤ c && c ≤ 'F' then some (c.toNat - 55)
  else none

def hex4 (a b c d : Char) : Option Nat := do
  let x ← hexDigit a
  let y ← hexDigit b
  let z ← hexDigit c
  let w ← hexDigit d
  return ((x * 16 + y) * 16 + z) * 16 + w

/-- Fraction part of a JSON number (empty when absent, `none` on `1.` etc.). -/
def parseFrac (s : RStr) : Option (RStr × RStr) :=
  match s with
  | '.' :: t =>
    let ds := t.takeWhile Char.isDigit
    if ds.isEmpty then none else some ('.' :: ds, t.dropWhile Char.isDigit)
  | _ => some ([], s)

/-- Exponent part of a JSON number (empty when absent). -/
def parseExp (s : RStr) : Option (RStr × RStr) :=
  match s with
  | e :: t =>
    if e = 'e' || e = 'E' then
      let (sgn, t2) :=
        match t with
        | c :: u => if c = '+' || c = '-' then ([c], u) else ([], t)
        | [] => ([], t)
      let ds := t2.takeWhile Char.isDigit
      if ds.isEmpty then none
      else some (e :: (sgn ++ ds), t2.dropWhile Char.isDigit)
    else some ([], s)
  | [] => some ([], [])

def natOfDigits (ds : RStr) : Nat := ds.foldl (fun acc c => acc * 10 + (c.toNat - 48)) 0

/-- A JSON number starting at `s`: integer literals become `jint`, literals
with a fraction or exponent become `jfloat` carrying their raw text. -/
def parseNum (s : RStr) : Option (JValue × RStr) := do
  let (negPart, s1) :=
    match s with
    | '-' :: t => ((['-'] : RStr), t)
    | _ => (([] : RStr), s)
  match s1 with
  | [] => none
  | d :: _ =>
    if !d.isDigit then none else
    -- JSON forbids leading zeros: after an initial 0 the integer part ends.
    let (intDigits, s2) :=
      if d = '0' then ((['0'] : RStr), s1.tail)
      else (s1.takeWhile Char.isDigit, s1.dropWhile Char.isDigit)
    let (fracPart, s3) ← parseFrac s2
    let (expPart, s4) ← parseExp s3
    if fracPart.isEmpty && expPart.isEmpty then
      let n : Int := natOfDigits intDigits
      return (JValue.jint (if negPart.isEmpty then n else -n), s4)
    else
      return (JValue.jfloat (negPart ++ intDigits ++ fracPart ++ expPart), s4)

mutual

/-- A JSON value starting at `s` (leading whitespace allowed), returning the
value and the unconsumed remainder.  Fuel-indexed; `json_from_str` supplies
enough fuel for any input of the given length. -/
def parseVal : Nat → RStr → Option (JValue × RStr)
  | 0, _ => none
  | fuel + 1, s =>
    let s := skipWs s
    match s with
    | [] => none
    | c :: rest =>
      if c = '{' then
        let rest2 := skipWs rest
        match rest2 with
        | '}' :: r => some (JValue.jobj [], r)
        | _ => (parseObjFields fuel rest2).map (fun p => (JValue.jobj p.1, p.2))
      else if c = '[' then
        let rest2 := skipWs rest
        match rest2 with
        | ']' :: r => some (JValue.jarr [], r)
        | _ => (parseArrElems fuel rest2).map (fun p => (JValue.jarr p.1, p.2))
      else if c = '"' then
        (parseStringBody fuel rest).map (fun p => (JValue.jstr p.1, p.2))
      else if c = 't' then
        if "rue".data.isPrefixOf rest then some (JValue.jbool true, rest.drop 3) else none
      else if c = 'f' then
        if "alse".data.isPrefixOf rest then some (JValue.jbool false, rest.drop 4) else none
      else if c = 'n' then
        if "ull".data.isPrefixOf rest then some (JValue.null, rest.drop 3) else none
      else if c = '-' || c.isDigit then parseNum s
      else none

/-- Comma-separated array elements up to the closing `]`. -/
def parseArrElems : Nat → RStr → Option (List JValue × RStr)
  | 0, _ => none
  | fuel + 1, s => do
    let (v, r) ← parseVal fuel s
    let r := skipWs r
    match r with
    | ',' :: r2 => (parseArrElems fuel r2).map (fun p => (v :: p.1, p.2))
    | ']' :: r2 => some ([v], r2)
    | _ => none

/-- Comma-separated `"key": value` fields up to the closing `}`. -/
def parseObjFields : Nat → RStr → Option (List (RStr × JValue) × RStr)
  | 0, _ => none
  | fuel + 1, s =>
    match skipWs s with
    | '"' :: rest => do
      let (key, r) ← parseStringBody fuel rest
      match skipWs r with
      | ':' :: r2 => do
        let (v, r3) ← parseVal fuel r2
        match skipWs r3 with
        | ',' :: r5 => (parseObjFields fuel r5).map (fun p => ((key, v) :: p.1, p.2))
        | '}' :: r5 => some ([(key, v)], r5)
        | _ => none
      | _ => none
    | _ => none

/-- Body of a JSON string after the opening quote: decodes escapes (including
`\uXXXX` with surrogate pairs), rejects raw control characters. -/
def parseStringBody : Nat → RStr → Option (RStr × RStr)
  | 0, _ => none
  | fuel + 1, s =>
    match s with
    | [] => none
    | c :: rest =>
      if c = '"' then some ([], rest)
      else if c = '\\' then
        match rest with
        | [] => none
        | e :: rest2 =>
          if e = 'u' then
            match rest2 with
            | h1 :: h2 :: h3 :: h4 :: rest3 => do
              let n ← hex4 h1 h2 h3 h4
              if 0xD800 ≤ n && n ≤ 0xDBFF then
                match rest3 with
                | '\\' :: 'u' :: g1 :: g2 :: g3 :: g4 :: rest4 => do
                  let m ← hex4 g1 g2 g3 g4
                  if 0xDC00 ≤ m && m ≤ 0xDFFF then
                    let code := 0x10000 + (n - 0xD800) * 0x400 + (m - 0xDC00)
                    (parseStringBody fuel rest4).map (fun p => (Char.ofNat code :: p.1, p.2))
                  else none
                | _ => none
              else if 0xDC00 ≤ n && n ≤ 0xDFFF then none
              else (parseStringBody fuel rest3).map (fun p => (Char.ofNat n :: p.1, p.2))
            | _ => none
          else
            match simpleEsc e with
            | some c2 => (parseStringBody fuel rest2).map (fun p => (c2 :: p.1, p.2))
            | none => none
      else if c.toNat < 0x20 then none
      else (parseStringBody fuel rest).map (fun p => (c :: p.1, p.2))

end

/-- Model of `serde_json::from_str::<serde_json::Value>`: one JSON value, with
only whitespace allowed after it. -/
def json_from_str (s : RStr) : Option JValue :=
  match parseVal (4 * s.length + 4) s with
  | some (v, rest) => if (skipWs rest).isEmpty then some v else none
  | none => none

example :
    json_from_str "\x7b\"a\": [1, -2, true], \"b\": null\x7d".data =
      some (JValue.jobj
        [("a".data, JValue.jarr [JValue.jint 1, JValue.jint (-2), JValue.jbool true]),
         ("b".data, JValue.null)]) := by rfl
example : json_from_str " 42 ".data = some (JValue.jint 42) := by rfl
example : json_from_str "1.5".data = some (JValue.jfloat "1.5".data) := by rfl
example : json_from_str "01".data = none := by rfl
example : json_from_str "\x7b\"s\":\"a\\\"b\"\x7d".data =
    some (JValue.jobj [("s".data, JValue.jstr "a\"b".data)]) := by rfl
example : json_from_str "not valid json".data = none := by rfl

/-! ## Accessors on `serde_json::Value` -/

/-- Model of `Value::get(key)`: `Some` only on objects holding the key.  The
last matching pair models the map's overwrite-on-duplicate-key semantics. -/
def jget (j : JValue) (key : RStr) : Option JValue :=
  match j with
  | JValue.jobj kvs => (kvs.filter (fun kv => kv.1 = key)).getLast?.map Prod.snd
  | _ => none

/-- Model of square-bracket indexing `json["key"]`: like `get` but yielding
`Null` on a missing key or a non-object. -/
def jindex (j : JValue) (key : RStr) : JValue := (jget j key).getD JValue.null

/-- Model of `Value::as_str`. -/
def jasStr (j : JValue) : Option RStr :=
  match j with
  | JValue.jstr s => some s
  | _ => none

/-- Model of `Value::as_bool`. -/
def jasBool (j : JValue) : Option Bool :=
  match j with
  | JValue.jbool b => some b
  | _ => none

/-- Model of `Value::as_u64`: integers in `u64` range only (floats and
negative or oversized integers give `None`). -/
def jasU64 (j : JValue) : Option Nat :=
  match j with
  | JValue.jint n => if 0 ≤ n && n < (2 : Int) ^ 64 then some n.toNat else none
  | _ => none

/-- Whether `j` is an object carrying `key`. -/
def jhasKey (j : JValue) (key : RStr) : Bool :=
  match j with
  | JValue.jobj kvs => kvs.any (fun kv => kv.1 = key)
  | _ => false

/-! ## Error types (`error.rs`) — the variants the verified paths construct -/

inductive DeviceErr where
  | commandFailed (ip : RStr) (message : RStr)
  | invalidResponse (ip : RStr) (message : RStr)
  | otaFailed (ip : RStr) (message : RStr)

inductive CoreErr where
  | device (e : DeviceErr)
  | other (msg : RStr)

/-! ## `protocol/response.rs` -/

/-- Index of the first character satisfying `p`. -/
def rfindIdx (p : Char → Bool) : RStr → Option Nat
  | [] => none
  | c :: t => if p c then some 0 else (rfindIdx p t).map (· + 1)

/-- First index at which `{` or `[` occurs: the minimum of the two byte
offsets `response.find('{')` / `response.find('[')` in the source identifies
exactly the first character that is either, and slicing at the byte offset of
that (ASCII) character drops exactly the characters before it. -/
def jsonStart (s : RStr) : Option Nat := rfindIdx (fun c => c = '{' || c = '[') s

/-- Embedding of `parse_json_response` instantiated at `T = serde_json::Value`
(the instantiation the websocket layer uses).  The text of `serde_json`'s own
parse-failure message is abstracted to its fixed prefix. -/
def parse_json_response (response device_ip : RStr) : Except DeviceErr JValue :=
  match jsonStart response with
  | none => .error (.invalidResponse device_ip ("No JSON found in response".data))
  | some i =>
    match json_from_str (response.drop i) with
    | some v => .ok v
    | none => .error (.invalidResponse device_ip ("Failed to parse JSON".data))

/-- The `"error:"` marker of the first classification rule. -/
def errMarker : RStr := "error:".data

/-- The JSON branch of `is_error_response`: a parsed value with
`success == false` or an `error` field yields a device-supplied message. -/
def jsonErrCheck (json : JValue) : Option RStr :=
  let fromSuccess : Option RStr :=
    match jget json ("success".data) with
    | some s =>
      if s matches JValue.jbool false then
        match jget json ("message".data) with
        | some m => some ((jasStr m).getD ("Unknown error".data))
        | none =>
          match jget json ("error".data) with
          | some m => some ((jasStr m).getD ("Unknown error".data))
          | none => some ("Command failed".data)
      else none
    | none => none
  match fromSuccess with
  | some m => some m
  | none =>
    match jget json ("error".data) with
    | some e => some ((jasStr e).getD ("Unknown error".data))
    | none => none

/-- Embedding of `is_error_response`.  The outer `Except Unit` models the
possible panic: the first rule finds the byte index of `"error:"` in the
lowercased copy and slices the ORIGINAL response at that index plus six, which
can fall out of bounds or off a character boundary when lowercasing changed
byte lengths; `.error ()` is that panic. -/
def is_error_response (response : RStr) : Except Unit (Option RStr) :=
  let lower := rtoLowercase response
  match (if containsSub lower errMarker then rfindSub lower errMarker else none) with
  | some i =>
    match sliceFromByte response (byteOffset lower i + 6) with
    | some rest => .ok (some (rtrim rest))
    | none => .error ()
  | none =>
    let looksLikeTextError :=
      (containsSub lower ("error".data) || containsSub lower ("fail".data)
          || containsSub lower ("invalid".data) || containsSub lower ("not found".data))
        && !containsSub lower ("success".data)
    if looksLikeTextError then .ok (some (rtrim response))
    else
      match jsonStart response with
      | some start =>
        match json_from_str (response.drop start) with
        | some json => .ok (jsonErrCheck json)
        | none => .ok none
      | none => .ok none

example : is_error_response "Error: command not found".data = .ok (some "command not found".data) := by rfl
example : is_error_response "Failed to write parameter".data = .ok (some "Failed to write parameter".data) := by rfl
example : is_error_response "Not found".data = .ok (some "Not found".data) := by rfl
example : is_error_response "OK - success".data = .ok none := by rfl
example : is_error_response "\x7b\"success\": false, \"message\": \"Invalid param\"\x7d".data
    = .ok (some "Invalid param".data) := by rfl
example : is_error_response "\x7b\"success\": true\x7d".data = .ok none := by rfl
example : is_error_response "OK".data = .ok none := by rfl

/-! ## `protocol/commands.rs` -/

/-- Model of `value.replace('\\', "\\\\")`. -/
def escapeBackslashes (v : RStr) : RStr :=
  v.flatMap (fun c => if c = '\\' then ['\\', '\\'] else [c])

/-- Model of `.replace('"', "\\\"")` (applied second). -/
def escapeQuotes (v : RStr) : RStr :=
  v.flatMap (fun c => if c = '"' then ['\\', '"'] else [c])

namespace Commands

/-- Embedding of `Commands::write_param`: backslashes escaped first, then
double quotes, embedded in the double-quoted `-data` argument. -/
def write_param (group name value : RStr) : RStr :=
  let safe_value := escapeQuotes (escapeBackslashes value)
  "write -group ".data ++ group ++ " -name ".data ++ name
    ++ " -data \"".data ++ safe_value ++ "\"".data

end Commands

example : Commands.write_param "wifi".data "ssidST".data "MyNetwork".data
    = "write -group wifi -name ssidST -data \"MyNetwork\"".data := by decide
example : Commands.write_param "wifi".data "ssidST".data "Test\"Network".data
    = "write -group wifi -name ssidST -data \"Test\\\"Network\"".data := by decide
example : Commands.write_param "wifi".data "pswdST".data "pass\\word".data
    = "write -group wifi -name pswdST -data \"pass\\\\word\"".data := by decide

/-! ## `device/websocket.rs` -/

/-- The classification step `send_command` and `DeviceConnection::send_raw`
apply to a received reply before returning success (websocket.rs): a reply
classified as an error becomes `CommandFailed` with the extracted message.
The outer `Except Unit` propagates `is_error_response`'s panic model. -/
def classify_reply (ip reply : RStr) : Except Unit (Except CoreErr RStr) :=
  match is_error_response reply with
  | .error () => .error ()
  | .ok (some msg) => .ok (.error (.device (.commandFailed ip msg)))
  | .ok none => .ok (.ok reply)

/-- Observable events of the retry wrapper. -/
inductive RetryEvent where
  | attemptMade (i : Nat)
  | sleptMs (ms : Nat)
deriving DecidableEq

/-- The loop body of `send_command_with_retry` from attempt number `a` with
`remaining` further attempts allowed; `f i` is the outcome of the `i`-th
one-shot `send_command`.  Returns the final result and the event trace. -/
def retryFrom (f : Nat → Except CoreErr RStr) :
    Nat → Nat → Except CoreErr RStr × List RetryEvent
  | remaining, a =>
    match f a with
    | .ok r => (.ok r, [.attemptMade a])
    | .error e =>
      match remaining with
      | 0 => (.error e, [.attemptMade a])
      | r + 1 =>
        let rest := retryFrom f r (a + 1)
        (rest.1, .attemptMade a :: .sleptMs 500 :: rest.2)

/-- Embedding of `send_command_with_retry`: attempts `0..=max_retries`, a
fixed 500 ms sleep between consecutive attempts, first success returned
immediately, otherwise the last attempt's error. -/
def send_command_with_retry (f : Nat → Except CoreErr RStr) (max_retries : Nat) :
    Except CoreErr RStr × List RetryEvent :=
  retryFrom f max_retries 0

/-- The trace shape the retry wrapper produces: attempts `a, a+1, ..., a+k`
separated by single 500 ms sleeps, with no sleep after the final attempt. -/
def traceFrom (a : Nat) : Nat → List RetryEvent
  | 0 => [.attemptMade a]
  | k + 1 => .attemptMade a :: .sleptMs 500 :: traceFrom (a + 1) k

def isAttempt : RetryEvent → Bool
  | .attemptMade _ => true
  | .sleptMs _ => false

/-- The non-attempt (sleep) events of a retry trace. -/
def isSleepEv (e : RetryEvent) : Bool := !isAttempt e

/-- Embedding of `BatchSender` (timeout in ms; concurrency ceiling). -/
structure BatchSender where
  timeout_ms : Nat
  concurrency : Nat

/-- Embedding of `BatchSender::new`: a caller-supplied concurrency of 0 is
clamped up to 1 (`concurrency.max(1)`). -/
def BatchSender.new (timeout_ms concurrency : Nat) : BatchSender :=
  { timeout_ms := timeout_ms, concurrency := concurrency.max 1 }

/-- Embedding of `BatchSender::send_to_all`: one independent task per input
IP, each running `send_command` for that IP, collected by `buffer_unordered`.
The per-IP network outcome is abstracted by `op`; completion order is
unspecified in the source and modelled as input order. -/
def BatchSender.send_to_all (_b : BatchSender) (ips : List RStr)
    (op : RStr → Except CoreErr RStr) : List (RStr × Except CoreErr RStr) :=
  ips.map (fun ip => (ip, op ip))

/-! ## `device/ota.rs` -/

/-- Embedding of `upload_firmware_bulk`.  `client_build` abstracts
`build_client()` (reqwest client construction, an external effect), carrying
the error's display text on failure; `upload_op` abstracts
`upload_firmware_data` for one device over the shared client.  Returns the
per-IP results and, as an observable trace, the list of IPs for which an
upload (network attempt) was performed. -/
def upload_firmware_bulk (ips : List RStr) (client_build : Except RStr Unit)
    (upload_op : RStr → Except CoreErr Unit) :
    List (RStr × Except CoreErr Unit) × List RStr :=
  match client_build with
  | .error e => (ips.map (fun ip => (ip, .error (.other e))), [])
  | .ok _ => (ips.map (fun ip => (ip, upload_op ip)), ips)

/-! ## Discovery (`src-tauri/src/discovery/service.rs`, `src-tauri/src/types.rs`,
`crates/rtls-link-core/src/discovery/service.rs`)

Instants are modelled as milliseconds (`Nat`); `Instant::duration_since`
saturates, which truncated `Nat` subtraction matches. -/

inductive DeviceRole where
  | anchor
  | tag
  | anchorTdoa
  | tagTdoa
  | calibration
  | unknown
deriving DecidableEq

/-- Embedding of `DeviceRole::from_str`: the fixed lookup table, anything else
mapping to `Unknown`. -/
def DeviceRole.from_str (s : RStr) : DeviceRole :=
  if s = "anchor".data then .anchor
  else if s = "tag".data then .tag
  else if s = "anchor_tdoa".data then .anchorTdoa
  else if s = "tag_tdoa".data then .tagTdoa
  else if s = "calibration".data then .calibration
  else .unknown

/-- Embedding of the `Device` record (`types.rs`).  `last_seen` (a wall-clock
`chrono` timestamp always set to now) is omitted from the model. -/
structure Device where
  ip : RStr
  id : RStr
  role : DeviceRole
  mac : RStr
  uwb_short : RStr
  mav_sys_id : Nat
  firmware : RStr
  online : Option Bool
  sending_pos : Option Bool
  anchors_seen : Option Nat
  origin_sent : Option Bool
  rf_enabled : Option Bool
  rf_healthy : Option Bool
  avg_rate_c_hz : Option Nat
  min_rate_c_hz : Option Nat
  max_rate_c_hz : Option Nat
  log_level : Option Nat
  log_udp_port : Option Nat
  log_serial_enabled : Option Bool
  log_udp_enabled : Option Bool
deriving DecidableEq

/-- The field mapping of `parse_heartbeat` applied to a parsed JSON value:
key-absence yields `None` for the optional telemetry fields and defaults for
the required string/numeric fields; `as u8`/`as u16` casts truncate. -/
def deviceOfJson (ip : RStr) (json : JValue) : Device :=
  { ip := ip
  , id := (jasStr (jindex json "id".data)).getD []
  , role := DeviceRole.from_str ((jasStr (jindex json "role".data)).getD [])
  , mac := (jasStr (jindex json "mac".data)).getD []
  , uwb_short := (jasStr (jindex json "uwb_short".data)).getD "0".data
  , mav_sys_id := ((jasU64 (jindex json "mav_sysid".data)).getD 0) % 256
  , firmware := (jasStr (jindex json "fw".data)).getD []
  , online := some true
  , sending_pos := jasBool (jindex json "sending_pos".data)
  , anchors_seen := (jasU64 (jindex json "anchors_seen".data)).map (· % 256)
  , origin_sent := jasBool (jindex json "origin_sent".data)
  , rf_enabled := jasBool (jindex json "rf_enabled".data)
  , rf_healthy := jasBool (jindex json "rf_healthy".data)
  , avg_rate_c_hz := (jasU64 (jindex json "avg_rate_cHz".data)).map (· % 65536)
  , min_rate_c_hz := (jasU64 (jindex json "min_rate_cHz".data)).map (· % 65536)
  , max_rate_c_hz := (jasU64 (jindex json "max_rate_cHz".data)).map (· % 65536)
  , log_level := (jasU64 (jindex json "log_level".data)).map (· % 256)
  , log_udp_port := (jasU64 (jindex json "log_udp_port".data)).map (· % 65536)
  , log_serial_enabled := jasBool (jindex json "log_serial_enabled".data)
  , log_udp_enabled := jasBool (jindex json "log_udp_enabled".data) }

/-- Embedding of `parse_heartbeat`: fails exactly when the payload is not
structurally valid JSON, otherwise builds the `Device` by name-based field
extraction with defaults. -/
def parse_heartbeat (data : RStr) (ip : RStr) : Option Device :=
  (json_from_str data).map (fun json => deviceOfJson ip json)

/-- TTL for registry entries, in milliseconds (`DEVICE_TTL = 5s`). -/
def DEVICE_TTL : Nat := 5000

/-- The registry: IP key, device, last-seen instant (ms). -/
abbrev Registry := List (RStr × Device × Nat)

/-- Embedding of `prune_stale_devices`: retain entries seen strictly less than
`DEVICE_TTL` ago (`now.duration_since(last_seen) < DEVICE_TTL`). -/
def prune_stale_devices (now : Nat) (devices : Registry) : Registry :=
  devices.filter (fun e => now - e.2.2 < DEVICE_TTL)

/-- `HashMap::insert` on the registry model: replace the value at an existing
key, otherwise add the entry. -/
def registryInsert (devices : Registry) (ip : RStr) (d : Device) (now : Nat) : Registry :=
  if devices.any (fun e => e.1 = ip) then
    devices.map (fun e => if e.1 = ip then (ip, d, now) else e)
  else
    devices ++ [(ip, d, now)]

/-- Insertion sort by IP, modelling `device_list.sort_by(|a, b| a.ip.cmp(&b.ip))`. -/
def insertByIp (d : Device) : List Device → List Device
  | [] => [d]
  | e :: rest =>
    if decide (d.ip ≤ e.ip) then d :: e :: rest else e :: insertByIp d rest

def sortByIp (l : List Device) : List Device := l.foldr insertByIp []

/-- What one loop iteration of `DiscoveryService::run` observed on the socket:
a datagram (payload text and source IP), a receive error (logged, loop
continues), or the 2 s receive timeout. -/
inductive RecvOutcome where
  | packet (data : RStr) (src : RStr)
  | recvErr
  | timedOut

/-- The receive half of one loop iteration: a packet that parses as a
heartbeat upserts the registry under the device's IP; a parse failure, a
receive error, or a timeout leaves it unchanged. -/
def recvUpsert (devices : Registry) (recv : RecvOutcome) (now : Nat) : Registry :=
  match recv with
  | .packet data src =>
    match parse_heartbeat data src with
    | some d => registryInsert devices d.ip d now
    | none => devices
  | _ => devices

/-- Whether the iteration received a packet (`matches!(recv_result, Ok(Ok(_)))`),
regardless of whether it parsed. -/
def isPacketRecv : RecvOutcome → Bool
  | .packet _ _ => true
  | _ => false

/-- One iteration of the watch-mode loop (`DiscoveryService::run`): upsert on
a parsed heartbeat, always prune, and invoke `on_update` with the sorted
device list only when a packet was received or pruning changed the set size.
`none` in the second component models an iteration with no `on_update` call. -/
def runStep (devices : Registry) (recv : RecvOutcome) (now : Nat) :
    Registry × Option (List Device) :=
  let devices1 := recvUpsert devices recv now
  let devices2 := prune_stale_devices now devices1
  (devices2,
    if (devices1.length != devices2.length) || isPacketRecv recv then
      some (sortByIp (devices2.map (fun e => e.2.1)))
    else none)

example :
    (parse_heartbeat "\x7b\"id\": \"test\", \"role\": \"anchor\"\x7d".data "10.0.0.1".data).map
        (fun d => (d.id, d.role, d.sending_pos, d.uwb_short, d.mav_sys_id))
      = some ("test".data, DeviceRole.anchor, none, "0".data, 0) := by rfl
example : parse_heartbeat "not valid json".data "1.2.3.4".data = none := by rfl

/-- A device with the default field values: what a heartbeat carrying an empty
JSON object produces. -/
def sampleDevice (ip : RStr) : Device := deviceOfJson ip (JValue.jobj [])

/-! ## Helper lemmas -/

/-- One-pass description of the two sequential `replace` calls of
`write_param`: the escaping of a single character. -/
def escChar (c : Char) : RStr :=
  if c = '\\' then ['\\', '\\'] else if c = '"' then ['\\', '"'] else [c]

lemma escapeQuotes_escapeBackslashes (v : RStr) :
    escapeQuotes (escapeBackslashes v) = v.flatMap escChar := by
  induction v with
  | nil => rfl
  | cons c t ih =>
    simp only [escapeBackslashes, escapeQuotes, List.flatMap_cons, List.flatMap_append] at *
    rw [ih]
    by_cases hb : c = '\\'
    · subst hb; rfl
    · by_cases hq : c = '"'
      · subst hq; rfl
      · simp [escChar, hb, hq]

lemma retryFrom_all_fail (f : Nat → Except CoreErr RStr) :
    ∀ (r a : Nat), (∀ i, a ≤ i → i ≤ a + r → (f i).isOk = false) →
      retryFrom f r a = (f (a + r), traceFrom a r) := by
  intro r
  induction r with
  | zero =>
    intro a h
    have ha := h a le_rfl (by omega)
    cases hf : f a with
    | ok v => rw [hf] at ha; simp [Except.isOk, Except.toBool] at ha
    | error e =>
      unfold retryFrom
      simp [hf, traceFrom]
  | succ r ih =>
    intro a h
    have ha := h a le_rfl (by omega)
    cases hf : f a with
    | ok v => rw [hf] at ha; simp [Except.isOk, Except.toBool] at ha
    | error e =>
      have h2 := ih (a + 1) (fun i h1 h2 => h i (by omega) (by omega))
      have harg : a + 1 + r = a + (r + 1) := by omega
      unfold retryFrom
      simp only [hf, h2, traceFrom]
      rw [harg]

lemma retryFrom_first_ok (f : Nat → Except CoreErr RStr) :
    ∀ (r k a : Nat), k ≤ r → (∀ j, a ≤ j → j < a + k → (f j).isOk = false) →
      (f (a + k)).isOk = true →
      retryFrom f r a = (f (a + k), traceFrom a k) := by
  intro r
  induction r with
  | zero =>
    intro k a hk hfail hok
    have hk0 : k = 0 := by omega
    subst hk0
    simp only [Nat.add_zero] at hok
    cases hf : f a with
    | error e => rw [hf] at hok; simp [Except.isOk, Except.toBool] at hok
    | ok v =>
      unfold retryFrom
      simp [hf, traceFrom]
  | succ r ih =>
    intro k a hk hfail hok
    cases k with
    | zero =>
      simp only [Nat.add_zero] at hok
      cases hf : f a with
      | error e => rw [hf] at hok; simp [Except.isOk, Except.toBool] at hok
      | ok v =>
        unfold retryFrom
        simp [hf, traceFrom]
    | succ k =>
      have ha := hfail a le_rfl (by omega)
      cases hf : f a with
      | ok v => rw [hf] at ha; simp [Except.isOk, Except.toBool] at ha
      | error e =>
        have h2 := ih k (a + 1) (by omega)
          (fun j hj1 hj2 => hfail j (by omega) (by omega))
          (by rw [show a + 1 + k = a + (k + 1) by omega]; exact hok)
        have harg : a + 1 + k = a + (k + 1) := by omega
        unfold retryFrom
        simp only [hf, h2, traceFrom]
        rw [harg]

@[simp] lemma isAttempt_attemptMade (i : Nat) : isAttempt (.attemptMade i) = true := rfl
@[simp] lemma isAttempt_sleptMs (ms : Nat) : isAttempt (.sleptMs ms) = false := rfl
@[simp] lemma isSleepEv_attemptMade (i : Nat) : isSleepEv (.attemptMade i) = false := rfl
@[simp] lemma isSleepEv_sleptMs (ms : Nat) : isSleepEv (.sleptMs ms) = true := rfl

lemma traceFrom_shape (a k : Nat) :
    ((traceFrom a k).filter isAttempt).length = k + 1 ∧
    (traceFrom a k).filter isSleepEv = List.replicate k (.sleptMs 500) ∧
    ∃ pre, traceFrom a k = pre ++ [.attemptMade (a + k)] := by
  induction k generalizing a with
  | zero =>
    exact ⟨by simp [traceFrom], by simp [traceFrom], [], by simp [traceFrom]⟩
  | succ k ih =>
    obtain ⟨h1, h2, pre, h3⟩ := ih (a + 1)
    refine ⟨?_, ?_, .attemptMade a :: .sleptMs 500 :: pre, ?_⟩
    · simp [traceFrom, h1]
    · simp [traceFrom, h2, List.replicate_succ]
    · rw [traceFrom, h3]
      simp [show a + 1 + k = a + (k + 1) by omega]

/-- ASCII lowering of a single character: the single-character case of
`charToLower`. -/
def asciiLower (c : Char) : Char :=
  if 65 ≤ c.toNat && c.toNat ≤ 90 then Char.ofNat (c.toNat + 32) else c

lemma utf8Size_of_ascii {c : Char} (h : c.toNat < 128) : c.utf8Size = 1 := by
  unfold Char.utf8Size
  rw [if_pos]
  rw [UInt32.le_def, BitVec.le_def]
  show c.toNat ≤ (127 : UInt32).toNat
  norm_num
  omega

lemma toNat_ofNat_add32 {c : Char} (h1 : 65 ≤ c.toNat) (h2 : c.toNat ≤ 90) :
    (Char.ofNat (c.toNat + 32)).toNat = c.toNat + 32 := by
  have hv : (c.toNat + 32).isValidChar := Or.inl (by omega)
  rw [Char.ofNat, dif_pos hv]
  rfl

lemma asciiLower_toNat_lt {c : Char} (h : c.toNat < 128) : (asciiLower c).toNat < 128 := by
  unfold asciiLower
  by_cases hc : (65 ≤ c.toNat && c.toNat ≤ 90) = true
  · rw [if_pos hc]
    simp only [Bool.and_eq_true, decide_eq_true_eq] at hc
    rw [toNat_ofNat_add32 hc.1 hc.2]
    omega
  · rw [if_neg hc]
    exact h

lemma charToLower_ascii {c : Char} (h : c.toNat < 128) :
    charToLower c = [asciiLower c] := by
  unfold charToLower asciiLower
  have hne : ¬ c = Char.ofNat 0x130 := by
    intro he
    have h304 : c.toNat = (Char.ofNat 0x130).toNat := by rw [he]
    rw [show (Char.ofNat 0x130).toNat = 304 from by decide] at h304
    omega
  rw [if_neg hne]
  by_cases hc : (65 ≤ c.toNat && c.toNat ≤ 90) = true
  · rw [if_pos hc, if_pos hc]
  · rw [if_neg hc, if_neg hc]

lemma rtoLowercase_ascii {s : RStr} (h : allAscii s = true) :
    rtoLowercase s = s.map asciiLower := by
  induction s with
  | nil => rfl
  | cons c t ih =>
    simp only [allAscii, List.all_cons, Bool.and_eq_true, decide_eq_true_eq] at h
    simp only [rtoLowercase, List.flatMap_cons, List.map_cons]
    rw [charToLower_ascii h.1]
    have ht : rtoLowercase t = t.map asciiLower := ih h.2
    rw [rtoLowercase] at ht
    rw [ht]
    rfl

lemma allAscii_map_asciiLower {s : RStr} (h : allAscii s = true) :
    allAscii (s.map asciiLower) = true := by
  simp only [allAscii, List.all_eq_true, decide_eq_true_eq] at *
  intro c hc
  obtain ⟨d, hd, rfl⟩ := List.mem_map.mp hc
  exact asciiLower_toNat_lt (h d hd)

lemma rbyteLen_ascii {s : RStr} (h : allAscii s = true) : rbyteLen s = s.length := by
  induction s with
  | nil => rfl
  | cons c t ih =>
    simp only [allAscii, List.all_cons, Bool.and_eq_true, decide_eq_true_eq] at h
    simp only [rbyteLen, List.map_cons, List.sum_cons] at *
    rw [utf8Size_of_ascii h.1, ih h.2]
    simp [Nat.add_comm]

lemma allAscii_take {s : RStr} (h : allAscii s = true) (i : Nat) :
    allAscii (s.take i) = true := by
  simp only [allAscii, List.all_eq_true] at *
  intro c hc
  exact h c (List.take_subset i s hc)

lemma sliceFromByte_ascii {s : RStr} (h : allAscii s = true) :
    ∀ b, b ≤ s.length → sliceFromByte s b = some (s.drop b) := by
  induction s with
  | nil =>
    intro b hb
    have hb0 : b = 0 := by simpa using hb
    subst hb0
    rfl
  | cons c t ih =>
    intro b hb
    cases b with
    | zero => rfl
    | succ b =>
      simp only [allAscii, List.all_cons, Bool.and_eq_true, decide_eq_true_eq] at h
      rw [sliceFromByte, utf8Size_of_ascii h.1]
      rw [if_neg (by omega)]
      simp only [Nat.add_sub_cancel, List.drop_succ_cons]
      exact ih h.2 b (by simpa using hb)

lemma rfindSub_le_length : ∀ (s pat : RStr) (i : Nat), rfindSub s pat = some i →
    i + pat.length ≤ s.length := by
  intro s
  induction s with
  | nil =>
    intro pat i h
    rw [rfindSub] at h
    by_cases hp : pat.isEmpty
    · simp only [hp, if_true, Option.some.injEq] at h
      subst h
      simp only [List.isEmpty_iff] at hp
      simp [hp]
    · simp [hp] at h
  | cons c t ih =>
    intro pat i h
    rw [rfindSub] at h
    by_cases hp : pat.isPrefixOf (c :: t)
    · simp only [hp, if_true, Option.some.injEq] at h
      subst h
      simpa using (List.isPrefixOf_iff_prefix.mp hp).length_le
    · simp only [hp, if_false, Bool.false_eq_true, Option.map_eq_some'] at h
      obtain ⟨j, hj, hji⟩ := h
      subst hji
      have := ih pat j hj
      simp only [List.length_cons]
      omega

lemma rfindIdx_found (p : Char → Bool) :
    ∀ (s : RStr) (i : Nat), rfindIdx p s = some i →
      ∃ c, s[i]? = some c ∧ p c = true := by
  intro s
  induction s with
  | nil => intro i h; cases h
  | cons c t ih =>
    intro i h
    rw [rfindIdx] at h
    by_cases hc : p c
    · simp [hc] at h
      subst h
      exact ⟨c, by simp, hc⟩
    · simp [hc] at h
      obtain ⟨j, hj, hji⟩ := h
      subst hji
      obtain ⟨d, hd, hpd⟩ := ih j hj
      exact ⟨d, by simpa using hd, hpd⟩

lemma rfindIdx_min (p : Char → Bool) :
    ∀ (s : RStr) (i : Nat), rfindIdx p s = some i →
      ∀ j, j < i → ∀ c, s[j]? = some c → p c = false := by
  intro s
  induction s with
  | nil => intro i h; cases h
  | cons c t ih =>
    intro i h j hj d hd
    rw [rfindIdx] at h
    by_cases hc : p c
    · simp [hc] at h; omega
    · simp [hc] at h
      obtain ⟨k, hk, hki⟩ := h
      cases j with
      | zero =>
        simp at hd
        subst hd
        simpa using hc
      | succ j =>
        simp at hd
        exact ih k hk j (by omega) d hd

lemma mem_insertByIp {x d : Device} : ∀ {l : List Device}, x ∈ insertByIp d l → x = d ∨ x ∈ l := by
  intro l
  induction l with
  | nil =>
    intro h
    rw [insertByIp] at h
    exact Or.inl (List.mem_singleton.mp h)
  | cons e rest ih =>
    intro h
    rw [insertByIp] at h
    by_cases hle : decide (d.ip ≤ e.ip) = true
    · rw [if_pos hle] at h
      rcases List.mem_cons.mp h with h | h
      · exact Or.inl h
      · exact Or.inr h
    · rw [if_neg hle] at h
      rcases List.mem_cons.mp h with h | h
      · exact Or.inr (by simp [h])
      · rcases ih h with h | h
        · exact Or.inl h
        · exact Or.inr (by simp [h])

lemma mem_sortByIp {x : Device} : ∀ {l : List Device}, x ∈ sortByIp l → x ∈ l := by
  intro l
  induction l with
  | nil =>
    intro h
    simp only [sortByIp, List.foldr_nil] at h
    exact h
  | cons e rest ih =>
    intro h
    rw [sortByIp, List.foldr_cons] at h
    rcases mem_insertByIp h with h | h
    · simp [h]
    · have := ih (by rwa [sortByIp])
      simp [this]

lemma mem_registryInsert {devices : Registry} {ip : RStr} {d : Device} {now : Nat}
    {e : RStr × Device × Nat} :
    e ∈ registryInsert devices ip d now → e = (ip, d, now) ∨ e ∈ devices := by
  unfold registryInsert
  by_cases hany : devices.any (fun x => x.1 = ip) = true
  · rw [if_pos hany]
    intro h
    obtain ⟨x, hx, hxe⟩ := List.mem_map.mp h
    by_cases hxip : x.1 = ip
    · left
      rw [← hxe]
      simp [hxip]
    · right
      rw [← hxe]
      simp only [if_neg hxip]
      exact hx
  · rw [if_neg hany]
    intro h
    rcases List.mem_append.mp h with h | h
    · exact Or.inr h
    · exact Or.inl (List.mem_singleton.mp h)

lemma mem_recvUpsert {devices : Registry} {recv : RecvOutcome} {now : Nat}
    {e : RStr × Device × Nat} :
    e ∈ recvUpsert devices recv now →
    (∃ data src dd, recv = .packet data src ∧ parse_heartbeat data src = some dd ∧
        e = (dd.ip, dd, now)) ∨ e ∈ devices := by
  intro h
  cases recv with
  | packet data src =>
    simp only [recvUpsert] at h
    cases hp : parse_heartbeat data src with
    | some dd =>
      rw [hp] at h
      rcases mem_registryInsert h with h | h
      · exact Or.inl ⟨data, src, dd, rfl, hp, h⟩
      · exact Or.inr h
    | none =>
      rw [hp] at h
      exact Or.inr h
  | recvErr =>
    simp only [recvUpsert] at h
    exact Or.inr h
  | timedOut =>
    simp only [recvUpsert] at h
    exact Or.inr h

lemma runStep_snd_some {devices : Registry} {recv : RecvOutcome} {now : Nat}
    {l : List Device} :
    (runStep devices recv now).2 = some l →
    l = sortByIp ((prune_stale_devices now (recvUpsert devices recv now)).map
        (fun e => e.2.1)) := by
  intro hl
  simp only [runStep] at hl
  split at hl
  · exact (Option.some.inj hl).symm
  · cases hl

lemma pruned_absent (now : Nat) (devices1 : Registry) (ip : RStr)
    (hwf1 : ∀ e, e ∈ devices1 → e.2.1.ip = e.1)
    (hstale1 : ∀ d t, (ip, d, t) ∈ devices1 → DEVICE_TTL < now - t) :
    (∀ d t, (ip, d, t) ∉ prune_stale_devices now devices1) ∧
    (∀ dev, dev ∈ sortByIp ((prune_stale_devices now devices1).map (fun e => e.2.1)) →
        dev.ip ≠ ip) := by
  constructor
  · intro d t hmem
    obtain ⟨hin, hpred⟩ := List.mem_filter.mp hmem
    have := hstale1 d t hin
    simp only [decide_eq_true_eq] at hpred
    omega
  · intro dev hdev hdevip
    obtain ⟨e, he, hedev⟩ := List.mem_map.mp (mem_sortByIp hdev)
    obtain ⟨k, d0, t0⟩ := e
    obtain ⟨hein, hepred⟩ := List.mem_filter.mp he
    have hip := hwf1 (k, d0, t0) hein
    simp only at hip hedev
    have hk : k = ip := by
      rw [← hip, hedev]
      exact hdevip
    subst hk
    have := hstale1 d0 t0 hein
    simp only [decide_eq_true_eq] at hepred
    omega

lemma jindex_of_not_hasKey {j : JValue} {k : RStr} (h : jhasKey j k = false) :
    jindex j k = JValue.null := by
  cases j with
  | jobj kvs =>
    simp only [jhasKey] at h
    simp only [jindex, jget]
    have hf : kvs.filter (fun kv => kv.1 = k) = [] := by
      rw [List.filter_eq_nil_iff]
      intro kv hkv hkk
      have hany : kvs.any (fun kv => kv.1 = k) = true :=
        List.any_eq_true.mpr ⟨kv, hkv, hkk⟩
      rw [h] at hany
      cases hany
    simp [hf]
  | null => rfl
  | jbool b => rfl
  | jint n => rfl
  | jfloat lit => rfl
  | jstr s => rfl
  | jarr xs => rfl

/-! ## Claim theorems -/

/-- C9: `Commands::write_param` backslash-escapes every backslash and every
double quote in the value (backslashes first) before embedding it in the
double-quoted `-data` argument; the value `pass"word` embeds as `pass\"word`
with the quote escaped exactly once. -/
theorem write_param_escaping :
    (∀ group name value : RStr,
      Commands.write_param group name value
        = "write -group ".data ++ group ++ " -name ".data ++ name
            ++ " -data \"".data ++ value.flatMap escChar ++ "\"".data) ∧
    escChar '\\' = ['\\', '\\'] ∧
    escChar '"' = ['\\', '"'] ∧
    (∀ c, c ≠ '\\' → c ≠ '"' → escChar c = [c]) ∧
    Commands.write_param "wifi".data "pswdST".data "pass\"word".data
      = "write -group wifi -name pswdST -data \"pass\\\"word\"".data := by
  refine ⟨?_, rfl, rfl, ?_, by decide⟩
  · intro group name value
    unfold Commands.write_param
    rw [escapeQuotes_escapeBackslashes]
  · intro c h1 h2
    simp [escChar, h1, h2]

theorem write_param_escaping_witness :
    escChar 'a' = ['a'] :=
  write_param_escaping.2.2.2.1 'a' (by decide) (by decide)

/-- C4: `BatchSender::send_to_all` returns exactly one `(ip, result)` pair per
element of the input list (the output's IP list equals the input list), each
device's entry depends only on its own operation's outcome, and a
caller-supplied concurrency of 0 is clamped up to 1 by `BatchSender::new`. -/
theorem batch_send_to_all_spec :
    (∀ t c, 1 ≤ (BatchSender.new t c).concurrency) ∧
    (∀ t, (BatchSender.new t 0).concurrency = 1) ∧
    (∀ (b : BatchSender) ips op, (b.send_to_all ips op).map Prod.fst = ips) ∧
    (∀ (b : BatchSender) ips op ip r,
        (ip, r) ∈ b.send_to_all ips op → ip ∈ ips ∧ r = op ip) ∧
    (∀ (b1 b2 : BatchSender) (ips : List RStr)
        (op1 op2 : RStr → Except CoreErr RStr) (bad : RStr),
      (∀ ip, ip ≠ bad → op1 ip = op2 ip) →
      ∀ p ∈ b1.send_to_all ips op1, p.1 ≠ bad → p ∈ b2.send_to_all ips op2) := by
  refine ⟨?_, ?_, ?_, ?_, ?_⟩
  · intro t c
    exact Nat.le_max_right c 1
  · intro t; rfl
  · intro b ips op
    have hcomp : (Prod.fst ∘ fun ip => (ip, op ip)) = id := by funext ip; rfl
    simp [BatchSender.send_to_all, List.map_map, hcomp]
  · intro b ips op ip r h
    simp only [BatchSender.send_to_all, List.mem_map] at h
    obtain ⟨ip0, hmem, heq⟩ := h
    obtain ⟨h1, h2⟩ := Prod.mk.injEq .. ▸ heq
    subst h1
    exact ⟨hmem, h2.symm⟩
  · intro b1 b2 ips op1 op2 bad hagree p hp hne
    simp only [BatchSender.send_to_all, List.mem_map] at hp ⊢
    obtain ⟨ip0, hmem, heq⟩ := hp
    refine ⟨ip0, hmem, ?_⟩
    rw [← heq] at hne ⊢
    simp only at hne
    rw [hagree ip0 hne]

theorem batch_send_to_all_witness :
    ("5.5.5.5".data, Except.ok (ε := CoreErr) "OK".data) ∈
      (BatchSender.new 5000 2).send_to_all ["1.1.1.1".data, "5.5.5.5".data]
        (fun ip => if ip = "1.1.1.1".data then .error (.other "down".data) else .ok "OK".data) :=
  batch_send_to_all_spec.2.2.2.2 (BatchSender.new 5000 2) (BatchSender.new 5000 2)
    ["1.1.1.1".data, "5.5.5.5".data] _ _ "1.1.1.1".data (fun _ _ => rfl)
    ("5.5.5.5".data, Except.ok "OK".data)
    (List.Mem.tail _ (List.Mem.head _)) (by decide)

/-- C5: when shared HTTP client construction fails at the start of
`upload_firmware_bulk`, every input IP appears exactly once in the result,
marked failed with that same construction error, and no upload is attempted
for any device. -/
theorem upload_firmware_bulk_client_failure :
    ∀ (ips : List RStr) (msg : RStr) (op : RStr → Except CoreErr Unit),
      (upload_firmware_bulk ips (.error msg) op).1
          = ips.map (fun ip => (ip, .error (.other msg))) ∧
      ((upload_firmware_bulk ips (.error msg) op).1).map Prod.fst = ips ∧
      (upload_firmware_bulk ips (.error msg) op).2 = [] := by
  intro ips msg op
  refine ⟨rfl, ?_, rfl⟩
  have hcomp :
      (Prod.fst ∘ fun ip : RStr => (ip, (Except.error (.other msg) : Except CoreErr Unit)))
        = id := by
    funext ip; rfl
  simp [upload_firmware_bulk, List.map_map, hcomp]

/-- C8: `send_command_with_retry` makes at most `max_retries + 1` attempts,
returns the first success immediately, sleeps a fixed 500 ms between
consecutive attempts with no sleep after the final one, and when every attempt
fails returns the last attempt's error. -/
theorem send_command_with_retry_spec :
    ∀ (f : Nat → Except CoreErr RStr) (m : Nat),
      ((∀ i, i ≤ m → (f i).isOk = false) →
          send_command_with_retry f m = (f m, traceFrom 0 m)) ∧
      (∀ k, k ≤ m → (∀ j, j < k → (f j).isOk = false) → (f k).isOk = true →
          send_command_with_retry f m = (f k, traceFrom 0 k)) ∧
      (∀ k, ((traceFrom 0 k).filter isAttempt).length = k + 1 ∧
            (traceFrom 0 k).filter isSleepEv = List.replicate k (.sleptMs 500) ∧
            ∃ pre, traceFrom 0 k = pre ++ [.attemptMade k]) := by
  intro f m
  refine ⟨?_, ?_, ?_⟩
  · intro h
    unfold send_command_with_retry
    have := retryFrom_all_fail f m 0 (fun i h1 h2 => h i (by omega))
    simpa using this
  · intro k hk hfail hok
    unfold send_command_with_retry
    have := retryFrom_first_ok f m k 0 hk (fun j h1 h2 => hfail j (by omega))
      (by simpa using hok)
    simpa using this
  · intro k
    simpa using traceFrom_shape 0 k

/-- C2: a reply whose lowercase form lacks `"error:"` but contains one of
`"error"`, `"fail"`, `"invalid"`, `"not found"` and not `"success"` is
classified as an error whose message is the whole trimmed reply; `"success"`
suppresses the rule.  `"Failed to write parameter"` is an error and
`"OK - success"` is not. -/
theorem is_error_response_text_heuristic :
    (∀ s : RStr,
      containsSub (rtoLowercase s) errMarker = false →
      (containsSub (rtoLowercase s) "error".data = true ∨
        containsSub (rtoLowercase s) "fail".data = true ∨
        containsSub (rtoLowercase s) "invalid".data = true ∨
        containsSub (rtoLowercase s) "not found".data = true) →
      containsSub (rtoLowercase s) "success".data = false →
      is_error_response s = .ok (some (rtrim s))) ∧
    is_error_response "Failed to write parameter".data
      = .ok (some "Failed to write parameter".data) ∧
    is_error_response "OK - success".data = .ok none := by
  refine ⟨?_, by rfl, by rfl⟩
  intro s h1 h2 h3
  unfold is_error_response
  rcases h2 with h2 | h2 | h2 | h2 <;> simp [h1, h2, h3]

theorem is_error_response_text_heuristic_witness :
    is_error_response "Failed to write parameter".data
      = .ok (some (rtrim "Failed to write parameter".data)) :=
  is_error_response_text_heuristic.1 "Failed to write parameter".data
    (by decide) (Or.inr (Or.inl (by decide))) (by decide)

/-- C3: `parse_json_response` parses from the earliest index of `{` or `[`
(the substring from the minimum such index onward is handed to the JSON
parser); `"OK\n\x7b\"success\":true,\"value\":42\x7d"` extracts exactly that object,
and a response with neither character yields an `InvalidResponse` error saying
no JSON was found. -/
theorem parse_json_response_spec :
    (∀ (s ip : RStr) (i : Nat), jsonStart s = some i →
        (∃ c, s[i]? = some c ∧ (c = '{' ∨ c = '[')) ∧
        (∀ j, j < i → ∀ c, s[j]? = some c → c ≠ '{' ∧ c ≠ '[') ∧
        parse_json_response s ip
          = (match json_from_str (s.drop i) with
             | some v => .ok v
             | none => .error (.invalidResponse ip ("Failed to parse JSON".data)))) ∧
    (∀ s ip : RStr, jsonStart s = none →
        parse_json_response s ip
          = .error (.invalidResponse ip ("No JSON found in response".data))) ∧
    parse_json_response "OK\n\x7b\"success\":true,\"value\":42\x7d".data "192.168.1.1".data
      = .ok (JValue.jobj [("success".data, JValue.jbool true), ("value".data, JValue.jint 42)]) ∧
    parse_json_response "OK - done".data "192.168.1.1".data
      = .error (.invalidResponse "192.168.1.1".data ("No JSON found in response".data)) := by
  refine ⟨?_, ?_, by rfl, by rfl⟩
  · intro s ip i h
    refine ⟨?_, ?_, ?_⟩
    · obtain ⟨c, hc, hp⟩ := rfindIdx_found _ s i h
      refine ⟨c, hc, ?_⟩
      simpa using hp
    · intro j hj c hc
      have := rfindIdx_min _ s i h j hj c hc
      simpa using this
    · unfold parse_json_response
      rw [h]
  · intro s ip h
    unfold parse_json_response
    rw [h]

theorem parse_json_response_spec_witness :
    parse_json_response "ab{}".data "1.1.1.1".data
      = (match json_from_str (("ab{}".data).drop 2) with
         | some v => .ok v
         | none => .error (.invalidResponse "1.1.1.1".data ("Failed to parse JSON".data))) :=
  (parse_json_response_spec.1 "ab{}".data "1.1.1.1".data 2 (by rfl)).2.2

/-- C1 (amended to ASCII replies): for every ASCII reply whose lowercase form
contains `"error:"` (first occurrence at index `i`), classification reports an
error whose message is the text of the reply after that marker occurrence,
trimmed; `send_command`/`send_raw` then fail with `CommandFailed` carrying
that message.  The literal reply `"Error: invalid group"` yields failure with
message `"invalid group"`. -/
theorem is_error_response_marker_ascii :
    (∀ (s : RStr) (i : Nat), allAscii s = true →
        rfindSub (rtoLowercase s) errMarker = some i →
        is_error_response s = .ok (some (rtrim (s.drop (i + 6)))) ∧
        ∀ ip, classify_reply ip s
          = .ok (.error (.device (.commandFailed ip (rtrim (s.drop (i + 6))))))) ∧
    is_error_response "Error: invalid group".data = .ok (some "invalid group".data) ∧
    ∀ ip, classify_reply ip "Error: invalid group".data
      = .ok (.error (.device (.commandFailed ip "invalid group".data))) := by
  refine ⟨?_, by rfl, fun ip => by rfl⟩
  intro s i hascii h
  have hcontains : containsSub (rtoLowercase s) errMarker = true := by
    rw [containsSub, h]
    rfl
  have hlow : rtoLowercase s = s.map asciiLower := rtoLowercase_ascii hascii
  have hlowAscii : allAscii (rtoLowercase s) = true := by
    rw [hlow]
    exact allAscii_map_asciiLower hascii
  have hlen : (rtoLowercase s).length = s.length := by
    rw [hlow, List.length_map]
  have hbound : i + 6 ≤ s.length := by
    have := rfindSub_le_length (rtoLowercase s) errMarker i h
    rw [hlen] at this
    simpa using this
  have hbyte : byteOffset (rtoLowercase s) i = i := by
    rw [byteOffset, rbyteLen_ascii (allAscii_take hlowAscii i), List.length_take]
    omega
  have hslice : sliceFromByte s (i + 6) = some (s.drop (i + 6)) :=
    sliceFromByte_ascii hascii (i + 6) hbound
  have hmain : is_error_response s = .ok (some (rtrim (s.drop (i + 6)))) := by
    unfold is_error_response
    simp only [hcontains, if_true, h, hbyte, hslice]
  exact ⟨hmain, fun ip => by unfold classify_reply; rw [hmain]⟩

theorem is_error_response_marker_ascii_witness :
    is_error_response "Error: invalid group".data
      = .ok (some (rtrim (("Error: invalid group".data).drop 6))) :=
  ((is_error_response_marker_ascii.1 "Error: invalid group".data 0
    (by decide) (by decide)).1)

/-- C1 counterexample: the claim quantifies over every reply, but on the
non-ASCII reply `"İerror:foo"` the code's message is not the text after the
marker.  Lowercasing expands `İ` (U+0130) to two characters / three bytes, so
the byte index found in the lowercased copy, plus six, points one byte past
the marker in the original reply: the first (case-insensitive) occurrence of
`"error:"` spans characters 1–6, the text after it is `"foo"`, yet
classification returns `"oo"`. -/
theorem is_error_response_marker_counterexample :
    is_error_response "İerror:foo".data = .ok (some "oo".data) ∧
    ("İerror:foo".data).drop 1 = "error:foo".data ∧
    errMarker.isPrefixOf (("İerror:foo".data).drop 1) = true ∧
    ("İerror:foo".data).drop (1 + 6) = "foo".data ∧
    rtrim "foo".data = "foo".data ∧
    ("oo".data : RStr) ≠ "foo".data :=
  ⟨by rfl, by rfl, by rfl, by rfl, by rfl, by decide⟩

/-- C10 is wrong about the code: `is_error_response` is not panic-free.  On
the reply `"İİerror:"` the lowercased copy is 12 bytes where the original is
10; the marker is found at byte 6 of the lowercased copy, and slicing the
original at byte 6 + 6 = 12 is out of bounds, a panic (modelled as
`.error ()`). -/
theorem is_error_response_panic_out_of_bounds :
    is_error_response "İİerror:".data = .error () ∧
    rbyteLen "İİerror:".data = 10 ∧
    rfindSub (rtoLowercase "İİerror:".data) errMarker = some 4 ∧
    byteOffset (rtoLowercase "İİerror:".data) 4 + 6 = 12 :=
  ⟨by rfl, by rfl, by rfl, by rfl⟩

theorem send_command_with_retry_witness :
    send_command_with_retry
        (fun i => if i < 2 then .error (.other "timeout".data) else .ok "OK".data) 3
      = (.ok "OK".data, traceFrom 0 2) :=
  ((send_command_with_retry_spec
      (fun i => if i < 2 then .error (.other "timeout".data) else .ok "OK".data) 3).2.1)
    2 (by decide) (by decide) (by decide)

/-- C6: `prune_stale_devices` removes every registry entry last seen more
than the 5 s TTL in the past and retains every entry last seen strictly less
than 5 s ago; on the watch loop, a device whose entries are all stale and that
is not heard from in the iteration is absent from the pruned registry and from
the device list passed to the very next `on_update` invocation. -/
theorem prune_stale_devices_spec :
    (∀ (now : Nat) (devices : Registry) (ip : RStr) (d : Device) (t : Nat),
        DEVICE_TTL < now - t → (ip, d, t) ∉ prune_stale_devices now devices) ∧
    (∀ (now : Nat) (devices : Registry) (ip : RStr) (d : Device) (t : Nat),
        (ip, d, t) ∈ devices → now - t < DEVICE_TTL →
        (ip, d, t) ∈ prune_stale_devices now devices) ∧
    (∀ (devices : Registry) (recv : RecvOutcome) (now : Nat) (ip : RStr),
        (∀ e, e ∈ devices → e.2.1.ip = e.1) →
        (∀ d t, (ip, d, t) ∈ devices → DEVICE_TTL < now - t) →
        (∀ data src dd, recv = .packet data src →
            parse_heartbeat data src = some dd → dd.ip ≠ ip) →
        (∀ d t, (ip, d, t) ∉ (runStep devices recv now).1) ∧
        (∀ l, (runStep devices recv now).2 = some l →
            ∀ dev, dev ∈ l → dev.ip ≠ ip)) := by
  refine ⟨?_, ?_, ?_⟩
  · intro now devices ip d t hgt hmem
    obtain ⟨hin, hpred⟩ := List.mem_filter.mp hmem
    simp only [decide_eq_true_eq] at hpred
    omega
  · intro now devices ip d t hmem hlt
    exact List.mem_filter.mpr ⟨hmem, by simpa using hlt⟩
  · intro devices recv now ip hwf hstale hpkt
    have hwf1 : ∀ e, e ∈ recvUpsert devices recv now → e.2.1.ip = e.1 := by
      intro e he
      rcases mem_recvUpsert he with ⟨data, src, dd, hrecv, hparse, rfl⟩ | he2
      · rfl
      · exact hwf e he2
    have hstale1 : ∀ d t, (ip, d, t) ∈ recvUpsert devices recv now →
        DEVICE_TTL < now - t := by
      intro d t hmem
      rcases mem_recvUpsert hmem with ⟨data, src, dd, hrecv, hparse, heq⟩ | hmem2
      · exfalso
        simp only [Prod.mk.injEq] at heq
        exact hpkt data src dd hrecv hparse heq.1.symm
      · exact hstale d t hmem2
    obtain ⟨ha, hb⟩ := pruned_absent now (recvUpsert devices recv now) ip hwf1 hstale1
    constructor
    · intro d t
      exact ha d t
    · intro l hl dev hdev
      rw [runStep_snd_some hl] at hdev
      exact hb dev hdev

/-- Registry used to instantiate the C6 theorem: one stale entry (last seen
9 s before `now`) and one fresh entry (1 s before `now`). -/
def regW : Registry :=
  [("1.1.1.1".data, sampleDevice "1.1.1.1".data, 1000),
   ("2.2.2.2".data, sampleDevice "2.2.2.2".data, 9000)]

theorem prune_stale_devices_spec_witness :
    ("1.1.1.1".data, sampleDevice "1.1.1.1".data, (1000 : Nat))
        ∉ (runStep regW .timedOut 10000).1 ∧
    ∀ dev, dev ∈ [sampleDevice "2.2.2.2".data] → dev.ip ≠ "1.1.1.1".data := by
  have hwf : ∀ e, e ∈ regW → e.2.1.ip = e.1 := by decide
  have hstale : ∀ d t, (("1.1.1.1".data : RStr), d, t) ∈ regW →
      DEVICE_TTL < 10000 - t := by
    intro d t h
    rcases List.mem_cons.mp h with h | h
    · simp only [regW, Prod.mk.injEq] at h
      obtain ⟨-, -, ht⟩ := h
      subst ht
      decide
    · rcases List.mem_cons.mp h with h | h
      · simp only [regW, Prod.mk.injEq] at h
        exact absurd h.1 (by decide)
      · exact absurd h (List.not_mem_nil _)
  have hpkt : ∀ data src dd, (RecvOutcome.timedOut) = .packet data src →
      parse_heartbeat data src = some dd → dd.ip ≠ "1.1.1.1".data := by
    intro data src dd h
    exact absurd h (by intro hc; cases hc)
  obtain ⟨ha, hb⟩ :=
    prune_stale_devices_spec.2.2 regW .timedOut 10000 "1.1.1.1".data hwf hstale hpkt
  exact ⟨ha _ _, fun dev hdev => hb [sampleDevice "2.2.2.2".data] (by rfl) dev hdev⟩

/-- C7: `parse_heartbeat` fails exactly when the payload is not structurally
valid JSON; for valid payloads, each absent optional telemetry field is `None`
rather than a default, absent required string/numeric fields take defaults
instead of failing, and a role string outside the fixed lookup table maps to
`Unknown` without error. -/
theorem parse_heartbeat_spec :
    (∀ data ip : RStr, (parse_heartbeat data ip).isSome = (json_from_str data).isSome) ∧
    (∀ (data ip : RStr) (j : JValue), json_from_str data = some j →
        parse_heartbeat data ip = some (deviceOfJson ip j)) ∧
    (∀ (ip : RStr) (j : JValue),
        (jhasKey j "sending_pos".data = false → (deviceOfJson ip j).sending_pos = none) ∧
        (jhasKey j "anchors_seen".data = false → (deviceOfJson ip j).anchors_seen = none) ∧
        (jhasKey j "origin_sent".data = false → (deviceOfJson ip j).origin_sent = none) ∧
        (jhasKey j "rf_enabled".data = false → (deviceOfJson ip j).rf_enabled = none) ∧
        (jhasKey j "rf_healthy".data = false → (deviceOfJson ip j).rf_healthy = none) ∧
        (jhasKey j "avg_rate_cHz".data = false → (deviceOfJson ip j).avg_rate_c_hz = none) ∧
        (jhasKey j "min_rate_cHz".data = false → (deviceOfJson ip j).min_rate_c_hz = none) ∧
        (jhasKey j "max_rate_cHz".data = false → (deviceOfJson ip j).max_rate_c_hz = none) ∧
        (jhasKey j "log_level".data = false → (deviceOfJson ip j).log_level = none) ∧
        (jhasKey j "log_udp_port".data = false → (deviceOfJson ip j).log_udp_port = none) ∧
        (jhasKey j "log_serial_enabled".data = false →
            (deviceOfJson ip j).log_serial_enabled = none) ∧
        (jhasKey j "log_udp_enabled".data = false →
            (deviceOfJson ip j).log_udp_enabled = none)) ∧
    (∀ (ip : RStr) (j : JValue),
        (jhasKey j "id".data = false → (deviceOfJson ip j).id = []) ∧
        (jhasKey j "mac".data = false → (deviceOfJson ip j).mac = []) ∧
        (jhasKey j "uwb_short".data = false → (deviceOfJson ip j).uwb_short = "0".data) ∧
        (jhasKey j "mav_sysid".data = false → (deviceOfJson ip j).mav_sys_id = 0) ∧
        (jhasKey j "fw".data = false → (deviceOfJson ip j).firmware = []) ∧
        (jhasKey j "role".data = false → (deviceOfJson ip j).role = .unknown)) ∧
    (∀ s : RStr, s ≠ "anchor".data → s ≠ "tag".data → s ≠ "anchor_tdoa".data →
        s ≠ "tag_tdoa".data → s ≠ "calibration".data →
        DeviceRole.from_str s = .unknown) := by
  refine ⟨?_, ?_, ?_, ?_, ?_⟩
  · intro data ip
    simp [parse_heartbeat]
  · intro data ip j h
    rw [parse_heartbeat, h]
    rfl
  · intro ip j
    refine ⟨?_, ?_, ?_, ?_, ?_, ?_, ?_, ?_, ?_, ?_, ?_, ?_⟩ <;>
      · intro h
        simp only [deviceOfJson, jindex_of_not_hasKey h]
        rfl
  · intro ip j
    refine ⟨?_, ?_, ?_, ?_, ?_, ?_⟩ <;>
      · intro h
        simp only [deviceOfJson, jindex_of_not_hasKey h]
        rfl
  · intro s h1 h2 h3 h4 h5
    simp [DeviceRole.from_str, h1, h2, h3, h4, h5]

theorem parse_heartbeat_spec_witness :
    parse_heartbeat "{}".data "10.0.0.1".data
      = some (deviceOfJson "10.0.0.1".data (JValue.jobj [])) ∧
    (deviceOfJson "10.0.0.1".data (JValue.jobj [])).sending_pos = none ∧
    (deviceOfJson "10.0.0.1".data (JValue.jobj [])).uwb_short = "0".data ∧
    DeviceRole.from_str "pilot".data = .unknown :=
  ⟨parse_heartbeat_spec.2.1 "{}".data "10.0.0.1".data (JValue.jobj []) (by rfl),
   (parse_heartbeat_spec.2.2.1 "10.0.0.1".data (JValue.jobj [])).1 (by rfl),
   (parse_heartbeat_spec.2.2.2.1 "10.0.0.1".data (JValue.jobj [])).2.2.1 (by rfl),
   parse_heartbeat_spec.2.2.2.2 "pilot".data (by decide) (by decide) (by decide)
     (by decide) (by decide)⟩
